import Mathlib

/-!
Verification of the WebSocket protocol engine of this repository
(`src/socket.rs`, the current implementation; `src/websocket/socket.rs` is the
orphaned earlier version that the spec places out of scope).

The code is shallowly embedded: the byte stream is a `List Nat` of bytes,
reads are pure functions returning `Except` with the unread rest of the
stream, and the random mask key of `send_message` is an explicit parameter.
The reference platform is little-endian: Rust writes of the form
`write_all(mem::transmute(x.to_be()))` are embedded as big-endian byte
sequences, and the one write without `.to_be()` (the LEN16 extended length,
`socket.rs` line 190) as the native little-endian byte sequence.

`message.rs` and `nonce.rs` are not part of the given sources; the flag
constants, the `WSMessage` helper methods and the nonce derivation they
provide are modelled from the spec where needed, each marked in its doc
comment.
-/

/-- A byte stream: a list of bytes (each `< 256` on real inputs). -/
abbrev Bytes := List Nat

/-- Error outcomes of the embedded operations.  Each constructor corresponds
to one error site of `socket.rs`: `eof` is a failed transport read
(`read_exact` / `read_be_*` hitting end of input), `notConnected` the
missing-stream error, `missingStatus` the "missing response status" error,
`badStatus` the "invalid response status" error, `acceptMismatch` the
"missing Sec-WebSocket-Accept header in response" error, and
`malformedHeader` the `p[1]` index panic on a header line without a colon.
There is no protocol-length error constructor because `socket.rs` has no
such error site. -/
inductive WSError where
  | eof
  | notConnected
  | missingStatus
  | badStatus
  | acceptMismatch
  | malformedHeader
deriving Repr, DecidableEq

/-- Modelled from the spec (§3): `message.rs` is not in the given sources.
`FIN` is the top bit of the 16-bit header read big-endian from the wire. -/
def WS_FIN : Nat := 0x8000

/-- Modelled from the spec (§3): the `MASK` bit of the second header byte. -/
def WS_MASK : Nat := 0x0080

/-- Modelled from the spec (§3): the 7-bit base length field.  `send_message`
computes `len as u16 & WS_LEN.bits()` and compares tiers against
`WS_LEN16.bits()`, which forces this layout. -/
def WS_LEN : Nat := 0x007F

/-- Modelled from the spec (§3): `LEN` value 126 selects the 16-bit tier. -/
def WS_LEN16 : Nat := 126

/-- Modelled from the spec (§3): `LEN` value 127 selects the 64-bit tier. -/
def WS_LEN64 : Nat := 127

/-- Modelled from the spec (§3): the 4-bit opcode field (header bits 8-11). -/
def WS_OPCODE : Nat := 0x0F00

/-- Modelled from the spec (§3): the CLOSE opcode `0x8` as a header flag
value (the "terminating frame" flag used by `read_message`). -/
def WS_OPTERM : Nat := 0x0800

/-- `bitflags` `contains`: all bits of `v` are set in `h`. -/
def contains (h v : Nat) : Bool := h &&& v == v

/-- `WSHeader::from_bits_truncate` on a 16-bit flag set: every 16-bit
pattern is representable (spec §4.1), so this truncates to 16 bits. -/
def from_bits_truncate (n : Nat) : Nat := n &&& 0xFFFF

/-- The message model of `socket.rs`: header flags, payload bytes, and the
optional close status.  `status` is modelled as a plain 16-bit code:
`WSStatusCode` lives in the absent `message.rs`, and the spec (§3) models it
as an "optional 16-bit close code", so `FromPrimitive::from_u16` /
`to_u16` are modelled as total on 16-bit values. -/
structure WSMessage where
  header : Nat
  data : Bytes
  status : Option Nat
deriving Repr, DecidableEq

/-- Big-endian bytes of a `u16` (`x.to_be()` transmuted to bytes). -/
def to_be16 (n : Nat) : Bytes := [n / 256 % 256, n % 256]

/-- Native-order bytes of a `u16` on the little-endian reference platform:
the embedding of `write_all(mem::transmute(len as u16))` (line 190), the one
integer write in `socket.rs` without `.to_be()`. -/
def to_le16 (n : Nat) : Bytes := [n % 256, n / 256 % 256]

/-- Big-endian bytes of a `u32`. -/
def to_be32 (n : Nat) : Bytes :=
  [n / 16777216 % 256, n / 65536 % 256, n / 256 % 256, n % 256]

/-- Big-endian bytes of a `u64`. -/
def to_be64 (n : Nat) : Bytes :=
  [n / 72057594037927936 % 256, n / 281474976710656 % 256,
   n / 1099511627776 % 256, n / 4294967296 % 256,
   n / 16777216 % 256, n / 65536 % 256, n / 256 % 256, n % 256]

/-- `read_exact(n)`: exactly `n` bytes or a transport error. -/
def read_exact (n : Nat) (s : Bytes) : Except WSError (Bytes × Bytes) :=
  if n ≤ s.length then .ok (s.take n, s.drop n) else .error .eof

/-- `read_be_u16`: two bytes, big-endian. -/
def read_be_u16 (s : Bytes) : Except WSError (Nat × Bytes) :=
  match s with
  | b0 :: b1 :: rest => .ok (b0 * 256 + b1, rest)
  | _ => .error .eof

/-- `read_be_u32`: four bytes, big-endian. -/
def read_be_u32 (s : Bytes) : Except WSError (Nat × Bytes) :=
  match s with
  | b0 :: b1 :: b2 :: b3 :: rest =>
      .ok (b0 * 16777216 + b1 * 65536 + b2 * 256 + b3, rest)
  | _ => .error .eof

/-- `read_be_u64`: eight bytes, big-endian. -/
def read_be_u64 (s : Bytes) : Except WSError (Nat × Bytes) :=
  match s with
  | b0 :: b1 :: b2 :: b3 :: b4 :: b5 :: b6 :: b7 :: rest =>
      .ok (b0 * 72057594037927936 + b1 * 281474976710656 +
           b2 * 1099511627776 + b3 * 4294967296 +
           b4 * 16777216 + b5 * 65536 + b6 * 256 + b7, rest)
  | _ => .error .eof

/-- `WebSocket::read_header` (lines 120-124): read two bytes and decode the
16-bit header.  The source reads via `mem::transmute` of an uninitialized
`u16`, which is not well-defined Rust; the byte order is taken from the spec
(§4.1: "decode a 16-bit big-endian value into flags"), matching the
repository's earlier version which uses `read_be_u16` here. -/
def read_header (s : Bytes) : Except WSError (Nat × Bytes) :=
  match read_be_u16 s with
  | .ok (h, rest) => .ok (from_bits_truncate h, rest)
  | .error e => .error e

/-- `WebSocket::read_length` (lines 126-131): the three length tiers. -/
def read_length (header : Nat) (s : Bytes) : Except WSError (Nat × Bytes) :=
  let wslen := header &&& WS_LEN
  if wslen = WS_LEN16 then read_be_u16 s
  else if wslen = WS_LEN64 then read_be_u64 s
  else .ok (wslen, s)

/-- `WebSocket::mask_data` (lines 169-171): XOR byte `i` with byte
`(i % 4)` (counted from the least significant end) of the mask key. -/
def mask_data (data : Bytes) (mask : Nat) : Bytes :=
  data.enum.map (fun p => p.2 ^^^ (mask >>> (p.1 % 4 * 8) &&& 0xFF))

/-- `u32::rotate_right(16)` on a 32-bit mask key. -/
def rotr16 (m : Nat) : Nat := (m >>> 16) ||| ((m &&& 0xFFFF) <<< 16)

/-- `WebSocket::read_message` (lines 133-167), with each `try!` embedded as
`Except.bind`.  Note two faithful oddities of the source: the close-status
branch triggers on `contains(WS_OPTERM)` (the `0x8` opcode bit alone), and
`len = len - 2` is the wrapping `u64` subtraction, embedded as
`(len + 2^64 - 2) % 2^64`. -/
def read_message (s : Bytes) : Except WSError (WSMessage × Bytes) :=
  (read_header s).bind fun hs =>
  (read_length hs.1 hs.2).bind fun ls =>
  (if contains hs.1 WS_MASK then
     (read_be_u32 ls.2).bind fun mr => .ok (some mr.1, mr.2)
   else .ok (none, ls.2) : Except WSError (Option Nat × Bytes)).bind fun ms =>
  (if contains hs.1 WS_OPTERM then
     (read_be_u16 ms.2).bind fun sr =>
       .ok ((ls.1 + (18446744073709551616 - 2)) % 18446744073709551616, some sr.1, sr.2)
   else .ok (ls.1, none, ms.2) : Except WSError (Nat × Option Nat × Bytes)).bind fun lss =>
  (read_exact lss.1 lss.2.2).bind fun ds =>
  match ms.1 with
  | none => .ok ({ header := hs.1, data := ds.1, status := lss.2.1 }, ds.2)
  | some m =>
    match lss.2.1 with
    | some st =>
        .ok ({ header := hs.1,
               data := mask_data ds.1 (rotr16 m),
               status := some (st ^^^ (m &&& 0xFFFF)) }, ds.2)
    | none =>
        .ok ({ header := hs.1, data := mask_data ds.1 m, status := none }, ds.2)

/-- `WebSocket::send_message` (lines 173-221), with the thread-local random
mask key made an explicit parameter `maskKey` (spec §9 prescribes exactly
this injection).  Returns the bytes written.  `msg.header - WS_LEN` is the
`bitflags` set difference `header &&& (0xFFFF ^^^ WS_LEN)`.  The LEN16
extended length is written via `mem::transmute(len as u16)` with no
`.to_be()`, i.e. in native little-endian order (`to_le16`); the tier bound
is `u16::MAX` = 65535. -/
def send_message (msg : WSMessage) (maskKey : Nat) : Bytes :=
  let len := msg.data.length + (if msg.status.isSome then 2 else 0)
  let hdr0 := msg.header &&& (0xFFFF ^^^ WS_LEN)
  let hdr :=
    if len < WS_LEN16 then hdr0 ||| from_bits_truncate (len &&& WS_LEN)
    else if len < 65535 then hdr0 ||| WS_LEN16
    else hdr0 ||| WS_LEN64
  let lenBytes : Bytes :=
    if len < WS_LEN16 then []
    else if len < 65535 then to_le16 len
    else to_be64 len
  let head := to_be16 hdr ++ lenBytes
  if contains hdr WS_MASK then
    let statusBytes : Bytes :=
      match msg.status with
      | some st => to_be16 (st ^^^ (maskKey &&& 0xFFFF))
      | none => []
    let mask2 :=
      match msg.status with
      | some _ => rotr16 maskKey
      | none => maskKey
    head ++ to_be32 maskKey ++ statusBytes ++ mask_data msg.data mask2
  else
    head ++ (match msg.status with
             | some st => to_be16 st
             | none => []) ++ msg.data

/-- Modelled from the spec (§3): `message.rs` is not in the given sources.
The 4-bit opcode field of the header. -/
def WSMessage.opcode (m : WSMessage) : Nat := m.header >>> 8 &&& 0xF

/-- Modelled from the spec (§3): the FIN bit of the header. -/
def WSMessage.fin (m : WSMessage) : Bool := contains m.header WS_FIN

/-- Modelled from the spec (§3/§4.5): opcodes are partitioned into data
opcodes (below 8) and control opcodes (8 and above). -/
def WSMessage.is_control (m : WSMessage) : Bool := 8 ≤ m.opcode

/-- Modelled from the spec (§4.5): a whole message — FIN set with a data
opcode that is not a bare continuation, or any control frame regardless of
FIN ("classify by opcode family first"). -/
def WSMessage.is_whole (m : WSMessage) : Bool :=
  m.is_control || (m.fin && m.opcode != 0)

/-- Modelled from the spec (§4.5): a first fragment — FIN clear, data
opcode, not a continuation. -/
def WSMessage.is_first (m : WSMessage) : Bool :=
  !m.fin && !m.is_control && m.opcode != 0

/-- Modelled from the spec (§4.5): a middle fragment — FIN clear,
continuation opcode. -/
def WSMessage.is_more (m : WSMessage) : Bool := !m.fin && m.opcode == 0

/-- Modelled from the spec (§4.5): a final fragment — FIN set, continuation
opcode. -/
def WSMessage.is_last (m : WSMessage) : Bool := m.fin && m.opcode == 0

/-- Modelled from the spec (§4.5): appending a fragment's payload to the
pending buffer ("append payload to the pending buffer"); the buffer keeps
the header of its first fragment (§3). -/
def WSMessage.push (m frag : WSMessage) : WSMessage :=
  { m with data := m.data ++ frag.data }

/-- Modelled from the spec (§3/§4.5): marking the reassembled message final
by setting the FIN bit ("this frame completes the current message"). -/
def WSMessage.last (m : WSMessage) : WSMessage :=
  { m with header := m.header ||| WS_FIN }

/-- The empty buffer `WSMessage{ header: WSHeader::empty(), data: Vec::new(),
status: None }` (lines 280 and 296). -/
def emptyWSMessage : WSMessage := { header := 0, data := [], status := none }

/-- `WSDefragMessages::popbuf` (lines 292-300): returns the pending buffer
and resets it to empty, or `none` when its payload is empty.  The in-place
`mem::swap` becomes returning the pair (result, new buffer). -/
def popbuf (buf : WSMessage) : Option WSMessage × WSMessage :=
  if buf.data.isEmpty then (none, buf) else (some buf, emptyWSMessage)

/-- One call of `<WSDefragMessages as Iterator>::next` (lines 309-327) on a
remaining underlying message list and the current buffer: the emitted item
(`none` ends the iteration), the remaining list, and the new buffer.
`swapbuf` (storing a first fragment while discarding the previous buffer)
becomes continuing with the fragment as the new buffer. -/
def defragStep : List WSMessage → WSMessage → Option WSMessage × List WSMessage × WSMessage
  | [], buf => ((popbuf buf).1, [], (popbuf buf).2)
  | msg :: rest, buf =>
    if msg.is_whole then (some msg, rest, buf)
    else if msg.is_first then defragStep rest msg
    else if msg.is_more then defragStep rest (buf.push msg)
    else if msg.is_last then
      ((popbuf (buf.push msg)).1.map WSMessage.last, rest, (popbuf (buf.push msg)).2)
    else defragStep rest buf

/-- Draining the defragmenting iterator as a `for` loop does: the list of
messages emitted by repeated `next` calls until the first `none`.  This is
`defragStep` iterated; `defragRun_eq_step` below proves the agreement. -/
def defragRun : List WSMessage → WSMessage → List WSMessage
  | [], buf =>
    match popbuf buf with
    | (some m, _) => [m]
    | (none, _) => []
  | msg :: rest, buf =>
    if msg.is_whole then msg :: defragRun rest buf
    else if msg.is_first then defragRun rest msg
    else if msg.is_more then defragRun rest (buf.push msg)
    else if msg.is_last then
      match popbuf (buf.push msg) with
      | (some v, b2) => v.last :: defragRun rest b2
      | (none, _) => []
    else defragRun rest buf

/-- One line read from the buffered stream, including its terminating `\n`
(the `old_io`-style semantics this code relies on: the header loop compares
whole lines against `"\r\n"`); a partial line at end of input is returned
as-is, and `none` is end of input. -/
def readLine : Bytes → Option (Bytes × Bytes)
  | [] => none
  | b :: t =>
    if b = 10 then some ([10], t)
    else
      match readLine t with
      | none => some ([b], [])
      | some (l, r) => some (b :: l, r)

/-- Split at the first occurrence of `sep`, or `none` if absent. -/
def splitOnce (sep : Nat) : Bytes → Option (Bytes × Bytes)
  | [] => none
  | b :: t =>
    if b = sep then some ([], t)
    else
      match splitOnce sep t with
      | none => none
      | some (a, r) => some (b :: a, r)

/-- `str::splitn(n, sep)` with this code's pre-1.0 Rust semantics: at most
`n` splits (so up to `n + 1` pieces); the header loop's `splitn(1, ':')`
followed by `p[0]`/`p[1]` requires exactly these semantics. -/
def splitn (n sep : Nat) (s : Bytes) : List Bytes :=
  match n with
  | 0 => [s]
  | k + 1 =>
    match splitOnce sep s with
    | none => [s]
    | some (a, r) => a :: splitn k sep r

/-- The whitespace set `[' ', '\t', '\r', '\n']` trimmed from header names
and values (line 78). -/
def isHs (b : Nat) : Bool := b == 32 || b == 9 || b == 13 || b == 10

/-- `trim_matches(spaces)`: strip the whitespace set from both ends. -/
def trim (s : Bytes) : Bytes := ((s.dropWhile isHs).reverse.dropWhile isHs).reverse

/-- `str::parse::<u16>`: all decimal digits, non-empty, value within `u16`. -/
def parseU16 (s : Bytes) : Option Nat :=
  if s = [] then none
  else if s.all (fun b => 48 ≤ b && b ≤ 57) then
    if s.foldl (fun a b => a * 10 + (b - 48)) 0 < 65536 then
      some (s.foldl (fun a b => a * 10 + (b - 48)) 0)
    else none
  else none

/-- The numeric status of the HTTP status line (line 82):
`line.splitn(2, ' ').nth(1).and_then(|s| s.parse::<u16>().ok())`. -/
def statusOf (line : Bytes) : Option Nat :=
  match (splitn 2 32 line).get? 1 with
  | some piece => parseU16 piece
  | none => none

/-- One header line parsed as in line 93: `splitn(1, ':')`, both pieces
trimmed; `none` when there is no colon, where the source's `p[1]` panics. -/
def headerPair (line : Bytes) : Option (Bytes × Bytes) :=
  match splitn 1 58 line with
  | p0 :: p1 :: _ => some (trim p0, trim p1)
  | _ => none

/-- The header-collection loop of `read_response` (lines 92-95): lines up
to the first `"\r\n"` (or end of input, where a partial final line is still
parsed), each parsed by `headerPair`.  The accumulator holds the bytes of
the current line in reverse; returns the header pairs in stream order and
the unread rest of the stream. -/
def readHeadersAux : Bytes → Bytes → Except WSError (List (Bytes × Bytes)) × Bytes
  | [], acc =>
    if acc.isEmpty then (.ok [], [])
    else
      match headerPair acc.reverse with
      | some p => (.ok [p], [])
      | none => (.error .malformedHeader, [])
  | b :: t, acc =>
    if b = 10 then
      if (acc.reverse ++ [10]) = [13, 10] then (.ok [], t)
      else
        match headerPair (acc.reverse ++ [10]) with
        | some p =>
          match readHeadersAux t [] with
          | (.ok hs, rest) => (.ok (p :: hs), rest)
          | (.error e, rest) => (.error e, rest)
        | none => (.error .malformedHeader, t)
    else readHeadersAux t (b :: acc)

/-- The header lines of the response, from the stream position after the
status line. -/
def readHeaders (s : Bytes) : Except WSError (List (Bytes × Bytes)) × Bytes :=
  readHeadersAux s []

/-- `BTreeMap` lookup with last-write-wins collection semantics: the value
of the last pair whose key matches. -/
def mapFind (hs : List (Bytes × Bytes)) (k : Bytes) : Option Bytes :=
  match (hs.reverse.find? (fun p => p.1 == k)) with
  | some p => some p.2
  | none => none

/-- The bytes of `"Sec-WebSocket-Accept"`. -/
def secWebSocketAccept : Bytes :=
  [83, 101, 99, 45, 87, 101, 98, 83, 111, 99, 107, 101, 116, 45, 65, 99, 99, 101, 112, 116]

/-- `WebSocket::read_response` (lines 77-106) on the response byte stream:
read the status line, fail unless its second space-separated field parses
to exactly 101, collect the header lines, and fail unless
`Sec-WebSocket-Accept` is present and exactly equal to `nonce` (the
expected accept value).  The `match status { Some(101) => .. }` is embedded
as the equivalent equality test.  Returns the result together with the
unread rest of the stream (the buffered stream's position, which the
source leaves untouched on failure). -/
def read_response (nonce : Bytes) (s : Bytes) : Except WSError Unit × Bytes :=
  match readLine s with
  | none => (.error .missingStatus, [])
  | some (line, s1) =>
    if statusOf line = some 101 then
      match readHeaders s1 with
      | (.ok hs, s2) =>
        match mapFind hs secWebSocketAccept with
        | some r => if nonce = r then (.ok (), s2) else (.error .acceptMismatch, s2)
        | none => (.error .acceptMismatch, s2)
      | (.error e, s2) => (.error e, s2)
    else (.error .badStatus, s1)

/-- `WebSocket::connect` (lines 108-118) on the response byte stream.
`try_connect` and `write_request` act on the write side, which this model
does not observe; `Nonce::new()` is the opening key `key`, and
`nonce.encode()` is `enc key`.  Modelled from the spec: `nonce.rs` is not
in the given sources, so the accept derivation (§6, base64 of a digest of
the key and the WebSocket GUID) is an arbitrary function parameter `enc`. -/
def connect (enc : Bytes → Bytes) (key : Bytes) (s : Bytes) : Except WSError Unit × Bytes :=
  read_response (enc key) s

/-- Test vector: the bytes of `"HTTP/1.1 400 Bad\r\n"`, a non-101 status
line. -/
def line400 : Bytes :=
  [72, 84, 84, 80, 47, 49, 46, 49, 32, 52, 48, 48, 32, 66, 97, 100, 13, 10]

/-- Test vector: a 400 response status line followed immediately by a
well-formed one-byte BINARY frame `[0x82, 0x01, 0x41]`. -/
def resp400 : Bytes := line400 ++ [130, 1, 65]

/-- Test vector: the bytes of `"HTTP/1.1 101 Ok\r\n"`. -/
def line101 : Bytes :=
  [72, 84, 84, 80, 47, 49, 46, 49, 32, 49, 48, 49, 32, 79, 107, 13, 10]

/-- Test vector: the bytes of `"Sec-WebSocket-Accept: abc\r\n"`. -/
def acceptLine : Bytes := secWebSocketAccept ++ [58, 32, 97, 98, 99, 13, 10]

/-- Test vector: a complete 101 upgrade response whose accept header value
is `"abc"`. -/
def resp101 : Bytes := line101 ++ (acceptLine ++ [13, 10])

theorem bind_ok {α β : Type} (a : α) (f : α → Except WSError β) :
    Except.bind (.ok a) f = f a := rfl

theorem read_be_u16_to_be16 (x : Nat) (hx : x < 65536) (r : Bytes) :
    read_be_u16 (to_be16 x ++ r) = .ok (x, r) := by
  simp only [to_be16, List.cons_append, List.nil_append, read_be_u16, Except.ok.injEq,
    Prod.mk.injEq, and_true]
  omega

theorem read_be_u32_to_be32 (x : Nat) (hx : x < 4294967296) (r : Bytes) :
    read_be_u32 (to_be32 x ++ r) = .ok (x, r) := by
  simp only [to_be32, List.cons_append, List.nil_append, read_be_u32, Except.ok.injEq,
    Prod.mk.injEq, and_true]
  omega

theorem mask_data_three (x y z k : Nat) :
    mask_data [x, y, z] k =
      [x ^^^ (k &&& 0xFF), y ^^^ (k >>> 8 &&& 0xFF), z ^^^ (k >>> 16 &&& 0xFF)] := rfl

theorem opcode_lor_fin (h : Nat) : (h ||| 32768) >>> 8 &&& 15 = h >>> 8 &&& 15 := by
  apply Nat.eq_of_testBit_eq
  intro i
  simp only [Nat.testBit_land, Nat.testBit_shiftRight, Nat.testBit_lor]
  by_cases hi : i < 4
  · have h15 : Nat.testBit 32768 (8 + i) = false := by
      rw [show (32768 : Nat) = 2 ^ 15 from rfl]
      exact Nat.testBit_two_pow_of_ne (by omega)
    rw [h15, Bool.or_false]
  · have hpow : (15 : Nat) < 2 ^ i :=
      Nat.lt_of_lt_of_le (by norm_num)
        (Nat.pow_le_pow_right (by norm_num) (by omega : 4 ≤ i))
    have h15 : Nat.testBit 15 i = false := Nat.testBit_lt_two_pow hpow
    rw [h15, Bool.and_false, Bool.and_false]

theorem readHeadersAux_error (s : Bytes) : ∀ acc e rest,
    readHeadersAux s acc = (.error e, rest) → e = .malformedHeader := by
  induction s with
  | nil =>
    intro acc e rest h
    unfold readHeadersAux at h
    split at h
    · simp at h
    · split at h
      · simp at h
      · simp only [Prod.mk.injEq, Except.error.injEq] at h
        exact h.1.symm
  | cons b t ih =>
    intro acc e rest h
    unfold readHeadersAux at h
    split at h
    · split at h
      · simp at h
      · split at h
        · split at h
          · simp at h
          · simp only [Prod.mk.injEq, Except.error.injEq] at h
            rename_i heq
            rw [← h.1]
            exact ih [] _ _ heq
        · simp only [Prod.mk.injEq, Except.error.injEq] at h
          exact h.1.symm
    · exact ih _ _ _ h

/-- The draining run of the defragmenting iterator agrees with iterating
single `next` calls (`defragStep`) until the first `none`. -/
theorem defragRun_eq_step (msgs : List WSMessage) (buf : WSMessage) :
    defragRun msgs buf =
      (match defragStep msgs buf with
       | (none, _, _) => []
       | (some m, rest, b2) => m :: defragRun rest b2) := by
  induction msgs generalizing buf with
  | nil =>
    by_cases hb : buf.data.isEmpty
    · simp [defragRun, defragStep, popbuf, hb]
    · simp [defragRun, defragStep, popbuf, hb, emptyWSMessage]
  | cons m rest ih =>
    by_cases hw : m.is_whole
    · simp [defragRun, defragStep, hw]
    · by_cases h1 : m.is_first
      · simp only [defragRun, defragStep, hw, h1, if_false, if_true, Bool.false_eq_true,
          reduceIte]
        exact ih m
      · by_cases h2 : m.is_more
        · simp only [defragRun, defragStep, hw, h1, h2, Bool.false_eq_true, reduceIte]
          exact ih (buf.push m)
        · by_cases h3 : m.is_last
          · simp only [defragRun, defragStep, hw, h1, h2, h3, Bool.false_eq_true, reduceIte]
            rcases hp : popbuf (buf.push m) with ⟨res, b2⟩
            rcases res with _ | v <;> simp
          · simp only [defragRun, defragStep, hw, h1, h2, h3, Bool.false_eq_true, reduceIte]
            exact ih buf

theorem wsC2_len16_gen (d : Bytes) (hd : d.length = 65535) :
    send_message { header := 0x8100, data := d, status := none } 0 =
      [129, 127, 0, 0, 0, 0, 0, 0, 255, 255] ++ d := by
  simp only [send_message, hd, Option.isSome_none, Bool.false_eq_true, if_false,
    Nat.add_zero, WS_LEN16, WS_LEN, WS_MASK, WS_LEN64, contains, from_bits_truncate,
    to_be16, to_be64, to_le16]
  norm_num
  rw [show (33024 &&& (65535 ^^^ 127) : Nat) = 33024 from rfl]
  rw [show (33024 ||| 127 : Nat) = 33151 from rfl]
  rw [show (33151 &&& 128 : Nat) = 0 from rfl]
  norm_num

/-- Claim C1 (refuted by this evaluation; the failing length is 126): for a
FIN TEXT message with no masking, no status, and a 126-byte payload,
decoding the bytes produced by `send_message` does not yield the message
back — it fails with a transport error, because `send_message` writes the
LEN16 extended length in native little-endian order (line 190 lacks the
`.to_be()` that every sibling write has) while `read_length` reads it
big-endian, so the decoder computes length 32256 and over-reads.  The other
payload lengths named by the claim (0, 1, 125 in the literal tier and
65535, 65536 in the LEN64 tier) do round-trip. -/
theorem wsC1_roundtrip_fails_at_len126 :
    read_message (send_message { header := 0x8100, data := List.replicate 126 0, status := none } 0) =
      .error .eof := by
  set_option maxRecDepth 40000 in rfl

/-- Claim C2 (refuted by this evaluation): for effective length 126 the
LEN16 tier is selected, but the appended 2-byte extended length is
`[126, 0]` — native little-endian, not big-endian — and `read_length`
decodes those bytes (big-endian) to 32256, not 126; moreover effective
length 65535, although less than 65536, selects the LEN64 tier because the
source compares against `u16::MAX` = 65535. -/
theorem wsC2_len16_tier_encoding_bug :
    send_message { header := 0x8100, data := List.replicate 126 0, status := none } 0 =
      [129, 126, 126, 0] ++ List.replicate 126 0 ∧
    read_length 0x817E [126, 0] = .ok (32256, []) ∧
    send_message { header := 0x8100, data := List.replicate 65535 0, status := none } 0 =
      [129, 127, 0, 0, 0, 0, 0, 0, 255, 255] ++ List.replicate 65535 0 :=
  ⟨by set_option maxRecDepth 40000 in rfl, rfl,
   wsC2_len16_gen _ (List.length_replicate 65535 0)⟩

/-- Claim C3 (the claimed protocol-length error does not exist): a close
frame with declared payload length 0 (header bytes `[0x88, 0x00]`) and one
with declared length 1 (`[0x88, 0x01, 0x03, 0xE8]`) both make
`read_message` fail with a plain transport EOF error: `len = len - 2`
wraps around in `u64`, there is no length check, and the decoder then
tries to read the status bytes and about `2^64` payload bytes. -/
theorem wsC3_short_close_gives_transport_eof :
    read_message [136, 0] = .error .eof ∧
    read_message [136, 1, 3, 232] = .error .eof := ⟨rfl, rfl⟩

/-- Claim C4 (refuted by this evaluation): a PING frame (opcode 9) with a
2-byte payload is decoded by `read_message` with `status = some 1000` and
an empty payload, because the close-status branch tests
`contains(WS_OPTERM)` — the single `0x8` opcode bit — rather than equality
of the full opcode field with CLOSE; so a returned message can have
`status.isSome` with an opcode that is not CLOSE (8). -/
theorem wsC4_ping_gets_close_status :
    read_message [137, 2, 3, 232] =
      .ok ({ header := 35074, data := [], status := some 1000 }, []) ∧
    WSMessage.opcode { header := 35074, data := [], status := some 1000 } = 9 := ⟨rfl, rfl⟩

/-- Claim C5: a masked close frame with status code 1000 and payload
`"bye"` round-trips through `send_message` and `read_message` for every
32-bit mask key: the status is XOR-masked with the low 16 bits of the key
and the key is rotated right by 16 bits before masking the remaining
payload, identically on both paths, so the decoded status is 1000 and the
decoded payload is `"bye"` again. -/
theorem wsC5_masked_close_roundtrip (m : Nat) (hm : m < 4294967296) :
    read_message (send_message { header := 0x8880, data := [98, 121, 101], status := some 1000 } m) =
      .ok ({ header := 0x8885, data := [98, 121, 101], status := some 1000 }, []) := by
  have hk : m &&& 0xFFFF < 65536 := Nat.lt_of_le_of_lt Nat.and_le_right (by norm_num)
  have hx : 1000 ^^^ (m &&& 0xFFFF) < 65536 := by
    have h := Nat.xor_lt_two_pow (n := 16) (by norm_num : (1000 : Nat) < 2 ^ 16)
      (by norm_num at hk ⊢; exact hk)
    norm_num at h; exact h
  have hsend : send_message { header := 0x8880, data := [98, 121, 101], status := some 1000 } m =
      136 :: 133 :: (to_be32 m ++ (to_be16 (1000 ^^^ (m &&& 0xFFFF)) ++
        mask_data [98, 121, 101] (rotr16 m))) := rfl
  rw [hsend]
  have hh : read_header (136 :: 133 :: (to_be32 m ++ (to_be16 (1000 ^^^ (m &&& 0xFFFF)) ++
      mask_data [98, 121, 101] (rotr16 m)))) =
      .ok (34949, to_be32 m ++ (to_be16 (1000 ^^^ (m &&& 0xFFFF)) ++
        mask_data [98, 121, 101] (rotr16 m))) := rfl
  rw [read_message, hh, bind_ok]
  have hl : ∀ r : Bytes, read_length 34949 r = .ok (5, r) := fun r => rfl
  rw [hl, bind_ok]
  rw [show contains 34949 WS_MASK = true from rfl]
  simp only [if_true, reduceIte]
  rw [read_be_u32_to_be32 m hm, bind_ok, bind_ok]
  rw [show contains 34949 WS_OPTERM = true from rfl]
  simp only [reduceIte]
  rw [read_be_u16_to_be16 (1000 ^^^ (m &&& 0xFFFF)) hx, bind_ok, bind_ok]
  rw [mask_data_three]
  have hex : read_exact ((5 + (18446744073709551616 - 2)) % 18446744073709551616)
      [98 ^^^ (rotr16 m &&& 0xFF), 121 ^^^ (rotr16 m >>> 8 &&& 0xFF),
       101 ^^^ (rotr16 m >>> 16 &&& 0xFF)] =
      .ok ([98 ^^^ (rotr16 m &&& 0xFF), 121 ^^^ (rotr16 m >>> 8 &&& 0xFF),
            101 ^^^ (rotr16 m >>> 16 &&& 0xFF)], []) := rfl
  rw [hex, bind_ok]
  simp only [mask_data_three, Nat.xor_cancel_right, Except.ok.injEq, Prod.mk.injEq,
    WSMessage.mk.injEq, and_true]

/-- Witness for C5 at the concrete mask key `0xCAFEBABE`. -/
theorem wsC5_masked_close_roundtrip_witness :
    read_message (send_message { header := 0x8880, data := [98, 121, 101], status := some 1000 } 3405691582) =
      .ok ({ header := 0x8885, data := [98, 121, 101], status := some 1000 }, []) :=
  wsC5_masked_close_roundtrip 3405691582 (by norm_num)

/-- Claim C6: for any headers with the stated FIN and opcode fields (the
remaining header bits are arbitrary), the fragment sequence
first(FIN=0, BINARY, "AB"), more(FIN=0, CONT, "CD"), last(FIN=1, CONT, "EF")
makes the defragmenting iterator emit exactly one message, whose payload is
"ABCDEF" and whose opcode is BINARY (2); its header is the header of the
first fragment with FIN set. -/
theorem wsC6_defrag_three_fragments (h1 h2 h3 : Nat)
    (hf1 : h1 &&& 32768 = 0) (ho1 : h1 >>> 8 &&& 15 = 2)
    (hf2 : h2 &&& 32768 = 0) (ho2 : h2 >>> 8 &&& 15 = 0)
    (hf3 : h3 &&& 32768 = 32768) (ho3 : h3 >>> 8 &&& 15 = 0) :
    defragRun [{ header := h1, data := [65, 66], status := none },
               { header := h2, data := [67, 68], status := none },
               { header := h3, data := [69, 70], status := none }] emptyWSMessage =
      [{ header := h1 ||| 32768, data := [65, 66, 67, 68, 69, 70], status := none }] ∧
    WSMessage.opcode ⟨h1 ||| 32768, [65, 66, 67, 68, 69, 70], none⟩ = 2 := by
  constructor
  · simp only [defragRun, WSMessage.is_whole, WSMessage.is_control, WSMessage.fin,
      WSMessage.opcode, WSMessage.is_first, WSMessage.is_more, WSMessage.is_last,
      contains, WS_FIN, hf1, ho1, hf2, ho2, hf3, ho3, WSMessage.push, WSMessage.last,
      popbuf, emptyWSMessage, List.cons_append, List.nil_append, List.append_nil]
    norm_num
  · simp only [WSMessage.opcode, opcode_lor_fin, ho1]

/-- Witness for C6 at concrete headers 0x0200 (BINARY, FIN clear), 0x0000
(CONT, FIN clear), 0x8000 (CONT, FIN set). -/
theorem wsC6_defrag_three_fragments_witness :
    defragRun [{ header := 512, data := [65, 66], status := none },
               { header := 0, data := [67, 68], status := none },
               { header := 32768, data := [69, 70], status := none }] emptyWSMessage =
      [{ header := 512 ||| 32768, data := [65, 66, 67, 68, 69, 70], status := none }] ∧
    WSMessage.opcode ⟨512 ||| 32768, [65, 66, 67, 68, 69, 70], none⟩ = 2 :=
  wsC6_defrag_three_fragments 512 0 32768 rfl rfl rfl rfl rfl rfl

/-- Claim C7: when the underlying stream is exhausted, the defragmenting
iterator flushes a pending buffer with non-empty payload as one final
message, and ends the sequence without emitting anything when the buffer
payload is empty. -/
theorem wsC7_eof_flush (buf : WSMessage) :
    (buf.data ≠ [] → defragRun [] buf = [buf]) ∧
    (buf.data = [] → defragRun [] buf = []) := by
  obtain ⟨bh, bd, bs⟩ := buf
  constructor
  · intro h
    match bd, h with
    | b :: t, _ => rfl
  · intro h
    simp only at h
    subst h
    rfl

/-- Witness for C7: a pending buffer holding one byte is flushed at end of
stream; the empty buffer yields nothing. -/
theorem wsC7_eof_flush_witness :
    defragRun [] { header := 512, data := [65], status := none } =
      [{ header := 512, data := [65], status := none }] ∧
    defragRun [] { header := 0, data := [], status := none } = [] :=
  ⟨(wsC7_eof_flush { header := 512, data := [65], status := none }).1 (by decide),
   (wsC7_eof_flush { header := 0, data := [], status := none }).2 rfl⟩

/-- Claim C10: a fragment buffer counts as pending only when its
accumulated payload is non-empty.  With a first fragment and a final
continuation fragment that both carry empty payloads, the iterator emits
nothing (the final `popbuf` returns `none`, which ends the sequence), and
with the stream ending after the empty first fragment it likewise emits
nothing, even though the first fragment had been stored in the buffer. -/
theorem wsC10_empty_fragments_emit_nothing :
    defragRun [{ header := 512, data := [], status := none },
               { header := 32768, data := [], status := none }] emptyWSMessage = [] ∧
    defragRun [{ header := 512, data := [], status := none }] emptyWSMessage = [] ∧
    (popbuf { header := 512, data := [], status := none }).1 = none :=
  ⟨rfl, rfl, rfl⟩

/-- Claim C8 (amended): `connect` fails with the bad-status error exactly
when the numeric status parsed from the status line differs from 101, and
gets past this check only on 101.  The original final clause of the claim
— that after such a failure the connection is not usable for message I/O —
is refuted by `wsC8_io_usable_after_failure`: nothing in the code marks
the connection unusable, so a subsequent `read_message` still reads frames
from the stream. -/
theorem wsC8_bad_status_iff (enc : Bytes → Bytes) (key s line s1 : Bytes) (n : Nat)
    (hline : readLine s = some (line, s1)) (hst : statusOf line = some n) :
    ((connect enc key s).1 = .error .badStatus ↔ n ≠ 101) := by
  unfold connect read_response
  simp only [hline]
  by_cases hn : n = 101
  · subst hn
    simp only [hst, reduceIte]
    apply iff_of_false ?_ (by simp)
    intro hbad
    rcases hh : readHeaders s1 with ⟨res, s2⟩
    rw [hh] at hbad
    rcases res with e | hs
    · simp only at hbad
      have he := readHeadersAux_error s1 [] e s2 hh
      rw [he] at hbad
      simp at hbad
    · simp only at hbad
      rcases hm : mapFind hs secWebSocketAccept with _ | r
      · rw [hm] at hbad
        simp at hbad
      · rw [hm] at hbad
        simp only [] at hbad
        by_cases he : enc key = r
        · rw [if_pos he] at hbad
          simp at hbad
        · rw [if_neg he] at hbad
          simp at hbad
  · have hcond : ¬ (statusOf line = some 101) := by
      rw [hst]
      simp [hn]
    rw [if_neg hcond]
    simp [hn]

/-- Witness for the amended C8: a response with status 400 makes `connect`
fail with the bad-status error. -/
theorem wsC8_bad_status_iff_witness :
    (connect (fun b => b) [] resp400).1 = .error .badStatus :=
  (wsC8_bad_status_iff (fun b => b) [] resp400 line400 [130, 1, 65] 400 rfl rfl).mpr
    (by decide)

/-- Counterexample to the final clause of C8 as stated: after `connect`
fails with the bad-status error on a 400 response, the stream is still
attached and positioned after the status line, and `read_message` on it
succeeds and returns the next frame — so the connection remains usable for
message I/O as far as the code is concerned. -/
theorem wsC8_io_usable_after_failure :
    connect (fun b => b) [] resp400 = (.error .badStatus, [130, 1, 65]) ∧
    read_message [130, 1, 65] =
      .ok ({ header := 33281, data := [65], status := none }, []) := ⟨rfl, rfl⟩

/-- Claim C9: past the 101 status check and with the header block parsed,
`connect` succeeds exactly when the header map holds a
`Sec-WebSocket-Accept` entry whose value equals the expected accept value
`enc key` derived from the opening key; any missing header or any
difference in the value makes it fail with the accept-mismatch error. -/
theorem wsC9_accept_exact_match (enc : Bytes → Bytes) (key s line s1 s2 : Bytes)
    (hs : List (Bytes × Bytes))
    (hline : readLine s = some (line, s1)) (hst : statusOf line = some 101)
    (hh : readHeaders s1 = (.ok hs, s2)) :
    (mapFind hs secWebSocketAccept = some (enc key) → (connect enc key s).1 = .ok ()) ∧
    (mapFind hs secWebSocketAccept ≠ some (enc key) →
      (connect enc key s).1 = .error .acceptMismatch) := by
  unfold connect read_response
  simp only [hline, hst, reduceIte, hh]
  constructor
  · intro hf
    rw [hf]
    simp
  · intro hf
    rcases hm : mapFind hs secWebSocketAccept with _ | r
    · rfl
    · have hne : ¬ (enc key = r) := fun he => hf (by rw [hm, he])
      simp only [if_neg hne]

/-- Witness for C9: with the accept header value `"abc"`, `connect`
succeeds when the derived accept value is `"abc"` and fails with the
accept-mismatch error when one byte of the derived value differs
(`"abd"`). -/
theorem wsC9_accept_exact_match_witness :
    (connect (fun _ => [97, 98, 99]) [] resp101).1 = .ok () ∧
    (connect (fun _ => [97, 98, 100]) [] resp101).1 = .error .acceptMismatch :=
  ⟨(wsC9_accept_exact_match (fun _ => [97, 98, 99]) [] resp101 line101
      (acceptLine ++ [13, 10]) [] [(secWebSocketAccept, [97, 98, 99])] rfl rfl rfl).1 rfl,
   (wsC9_accept_exact_match (fun _ => [97, 98, 100]) [] resp101 line101
      (acceptLine ++ [13, 10]) [] [(secWebSocketAccept, [97, 98, 99])] rfl rfl rfl).2
     (by decide)⟩
